import Mathlib

set_option maxRecDepth 10000

/-!
Shallow embedding of `src/audio_processor.py` (class `AudioProcessor`):
the censorship splice loop of `apply_censorship`, the slice-and-fade of
`extract_clip`, and the batch loop of `create_clips`.

Modelling conventions:
* A pydub `AudioSegment` is represented at millisecond granularity as a
  `List ℤ` (one integer sample per millisecond); `len(audio)` in the
  Python code is `audio.length` here.  All indices the Python code ever
  computes are millisecond indices, so this is the code's own unit.
* Python `float` timestamps are modelled as exact rationals `ℚ`;
  Python's `int(...)` conversion is truncation toward zero (`pyInt`).
* pydub slicing `audio[a:b]` clamps each bound to the segment length and
  interprets negative bounds as counting from the end (`pydubSlice`).
* pydub `fade_in(d)`/`fade_out(d)` apply a linear amplitude ramp, one
  `get_frame` per step, each sample multiplied by the ramp factor and
  truncated the way `audioop.mul` truncates (floor, saturating at the
  16-bit bounds).  `fade_out(100)` computes its fade start as
  `len - 100`, which is negative for clips shorter than 100 ms: the
  negative slice bound and the negative `get_frame` indices then wrap
  (once, with clamping) into the end of the clip, so such clips come
  back longer and with duplicated content; this is modelled exactly
  (`pyGetFrame`, `fadeOut100`).
* File existence checks, logging and `export` calls are I/O framing and
  are not part of the buffer transformation being verified.
-/

/-- Samples are 16-bit signed integers, modelled as `ℤ` with explicit
saturation where a gain is applied. -/
abbrev Sample := ℤ

/-- Python `int(q)`: truncation toward zero. -/
def pyInt (q : ℚ) : ℤ :=
  if q < 0 then ⌈q⌉ else ⌊q⌋

/-- Resolve one pydub slice bound (in ms) against a segment of length `n`:
the bound is first clamped to at most `n`, a negative bound then counts
from the end of the segment (a residual negative index wraps once more at
the underlying byte string and is clamped at 0, as in Python slicing). -/
def pydubIdx (n : ℕ) (i : ℤ) : ℕ :=
  let j := min i (n : ℤ)
  let k := if j < 0 then j + n else j
  if k < 0 then (k + n).toNat else min k.toNat n

/-- pydub `xs[a:b]` (bounds in ms): the samples with resolved index in
`[a', b')`. -/
def pydubSlice (xs : List Sample) (a b : ℤ) : List Sample :=
  (xs.take (pydubIdx xs.length b)).drop (pydubIdx xs.length a)

/-- One censor entry: a dict with optional `seconds` and `reason` keys
(`censor.get('seconds', 0)`, `censor.get('reason', 'unknown')`). -/
structure CensorPoint where
  seconds : Option ℚ
  reason : Option String
deriving DecidableEq

/-- The timestamp the code reads from a censor entry: `get('seconds', 0)`. -/
def tsOf (p : CensorPoint) : ℚ :=
  p.seconds.getD 0

/-- `sorted(censor_timestamps, key=lambda x: x.get('seconds', 0))`:
a stable ascending sort by timestamp. -/
def sortPoints (ps : List CensorPoint) : List CensorPoint :=
  ps.mergeSort (fun a b => decide (tsOf a ≤ tsOf b))

/-- The body of the censor loop of `apply_censorship` for one point:
`start_ms = int(timestamp * 1000)`, `end_ms = int((timestamp + 0.5) * 1000)`
clamped to `len(audio)`, and
`audio = audio[:start_ms] + beep_sound[:500] + audio[end_ms:]`. -/
def censorStep (beep : List Sample) (audio : List Sample) (p : CensorPoint) : List Sample :=
  pydubSlice audio 0 (pyInt (tsOf p * 1000)) ++ pydubSlice beep 0 500 ++
    pydubSlice audio (min (pyInt ((tsOf p + 1/2) * 1000)) (audio.length : ℤ)) audio.length

/-- `apply_censorship` (buffer part): fold the censor loop over the points
sorted by timestamp.  `beep` is `self.beep_sound` (loaded or generated). -/
def apply_censorship (beep audio : List Sample) (points : List CensorPoint) : List Sample :=
  (sortPoints points).foldl (censorStep beep) audio

/-- `db_to_float(-120)`: the amplitude factor of a -120 dB gain,
`10 ** (-120 / 20) = 1 / 10^6`. -/
def dbMinus120 : ℚ := 1 / 1000000

/-- `audioop.mul` applied to one sample: multiply by the (exact) factor,
saturate at the 16-bit bounds, floor. -/
def pyMulSample (f : ℚ) (x : Sample) : Sample :=
  if 32767 < (x : ℚ) * f then 32767
  else if (x : ℚ) * f < -32767 then -32768
  else ⌊(x : ℚ) * f⌋

/-- The linear fade-in ramp of pydub `fade_in(100)` at offset `i` of the
fade region: from `-120` dB toward unity, one step per millisecond. -/
def fadeInVol (i : ℕ) : ℚ :=
  dbMinus120 + (1 - dbMinus120) * i / 100

/-- The linear fade-out ramp of pydub `fade_out(100)` at offset `j` of the
fade region: from unity toward `-120` dB, one step per millisecond. -/
def fadeOutVol (j : ℕ) : ℚ :=
  1 + (dbMinus120 - 1) * j / 100

/-- pydub `clip.fade_in(100)` = `fade(from_gain=-120, start=0, duration=100)`:
`self[:0]` (empty) + one scaled `get_frame(i)` for each `i < 100` (frames
at or past the clip end are empty) + `self[100:]` unchanged.  For every
clip length this equals: scale the first `min(100, len)` frames by the
fade-in ramp and keep the rest, which is what this `mapIdx` does. -/
def fadeIn100 (xs : List Sample) : List Sample :=
  xs.mapIdx (fun i x => if i < 100 then pyMulSample (fadeInVol i) x else x)

/-- pydub `get_frame(j)`: the underlying byte string sliced at
`[j*frame_width, (j+1)*frame_width)` with Python byte-slice semantics —
a negative index wraps once by the length and is then clamped at 0 — so
`get_frame(-1)` is empty and `get_frame(j)` for `-len <= j <= -2` is
frame `len + j`; out-of-range indices give the empty frame. -/
def pyFrameIdx (n : ℕ) (j : ℤ) : ℕ :=
  if j < 0 then (j + n).toNat else min j.toNat n

/-- One frame of a segment, as a 0- or 1-element list (see `pyFrameIdx`). -/
def pyGetFrame (xs : List Sample) (j : ℤ) : List Sample :=
  (xs.take (pyFrameIdx xs.length (j + 1))).drop (pyFrameIdx xs.length j)

/-- pydub `clip.fade_out(100)` = `fade(to_gain=-120, end=inf, duration=100)`:
`end` clamps to `len` and the fade start is `len - 100`, WITHOUT clamping —
negative for clips shorter than 100 ms.  The result is `self[:len-100]`
(a negative slice bound wraps into the clip), then one
`get_frame(len - 100 + i)` per `i < 100` scaled by the fade-out ramp
(negative frame indices wrap into the end of the clip, so short clips
re-read frames and come back with duplicated content and a different
length, e.g. 99 ms in, 197 ms out), then `self[len:]` (always empty) at
the target gain. -/
def fadeOut100 (xs : List Sample) : List Sample :=
  pydubSlice xs 0 ((xs.length : ℤ) - 100) ++
    ((List.range 100).map
      (fun (i : ℕ) => (pyGetFrame xs ((xs.length : ℤ) - 100 + (i : ℤ))).map
        (pyMulSample (fadeOutVol i)))).flatten ++
    (pydubSlice xs (xs.length : ℤ) (xs.length : ℤ)).map (pyMulSample dbMinus120)

/-- `extract_clip` (buffer part):
`clip = audio[int(start_seconds*1000) : int(end_seconds*1000)]` followed by
`clip.fade_in(100).fade_out(100)`. -/
def extract_clip (audio : List Sample) (start_seconds end_seconds : ℚ) : List Sample :=
  fadeOut100 (fadeIn100 (pydubSlice audio (pyInt (start_seconds * 1000)) (pyInt (end_seconds * 1000))))

/-- One clip request: a dict with optional `start_seconds`, `end_seconds`
and `description` keys. -/
structure ClipSpec where
  start_seconds : Option ℚ
  end_seconds : Option ℚ
  description : Option String
deriving DecidableEq

/-- Python `f"{k:02d}"`: decimal, left-padded with `0` to width 2. -/
def pad2 (k : ℕ) : String :=
  if k < 10 then "0" ++ toString k else toString k

/-- The clip file name `f"{stem}_clip_{i+1:02d}.wav"` built by
`create_clips` for the spec at 0-based index `i`. -/
def clipFileName (stem : String) (i : ℕ) : String :=
  stem ++ "_clip_" ++ pad2 (i + 1) ++ ".wav"

/-- The loop of `create_clips`, carrying the 0-based loop index: for each
spec take `start = get('start_seconds', 0)`,
`end = get('end_seconds', start + 30)`, extract the clip and record the
output file name and its contents. -/
def create_clips_go (stem : String) (audio : List Sample) : ℕ → List ClipSpec → List (String × List Sample)
  | _, [] => []
  | i, c :: rest =>
    let s := c.start_seconds.getD 0
    let e := c.end_seconds.getD (s + 30)
    (clipFileName stem i, extract_clip audio s e) :: create_clips_go stem audio (i + 1) rest

/-- `create_clips` (buffer part): process every spec in input order,
returning for each the artifact name and the extracted clip. -/
def create_clips (stem : String) (audio : List Sample) (specs : List ClipSpec) : List (String × List Sample) :=
  create_clips_go stem audio 0 specs

/-- Start of the window (in ms, as an index) that the point `p` overwrites. -/
def censorStart (p : CensorPoint) : ℕ :=
  (pyInt (tsOf p * 1000)).toNat

/-- The beep value the point `p` writes at absolute position `i`, if any. -/
def windowVal (beep : List Sample) (p : CensorPoint) (i : ℕ) : Option Sample :=
  if censorStart p ≤ i ∧ i < censorStart p + 500 then (beep.take 500)[i - censorStart p]?
  else none

/-- Overlay an optional overwrite on an optional original value. -/
def maskGet (m o : Option Sample) : Option Sample :=
  match m with
  | some v => some v
  | none => o

/-- The value the censor loop over `ps` writes at position `i`: the last
point of `ps` whose window covers `i` wins. -/
def censorMask (beep : List Sample) : List CensorPoint → ℕ → Option Sample
  | [], _ => none
  | p :: rest, i => maskGet (censorMask beep rest i) (windowVal beep p i)

/-! ### Basic facts about the embedded primitives -/

theorem pyInt_of_nonneg {q : ℚ} (h : 0 ≤ q) : pyInt q = ⌊q⌋ := by
  simp [pyInt, not_lt.mpr h]

theorem pyInt_nonneg {q : ℚ} (h : 0 ≤ q) : 0 ≤ pyInt q := by
  rw [pyInt_of_nonneg h]
  exact Int.floor_nonneg.mpr h

theorem pyInt_mono {q r : ℚ} (h : q ≤ r) : pyInt q ≤ pyInt r := by
  unfold pyInt
  by_cases hq : q < 0
  · by_cases hr : r < 0
    · simp only [hq, hr, if_true]
      exact Int.ceil_mono h
    · simp only [hq, hr, if_true, if_false]
      refine le_trans (Int.ceil_le.mpr ?_) (Int.floor_nonneg.mpr (by linarith))
      push_cast
      linarith
  · have hr : ¬ r < 0 := by push_neg at hq ⊢; linarith
    simp only [hq, hr, if_false]
    exact Int.floor_mono h

theorem pydubIdx_of_nonneg (n : ℕ) {i : ℤ} (h : 0 ≤ i) : pydubIdx n i = min i.toNat n := by
  simp only [pydubIdx]
  split_ifs <;> omega

theorem take_min_length (xs : List Sample) (k : ℕ) : xs.take (min k xs.length) = xs.take k := by
  rcases le_total k xs.length with h | h
  · rw [min_eq_left h]
  · rw [min_eq_right h, List.take_length, List.take_of_length_le h]

theorem pydubSlice_nonneg (xs : List Sample) {a b : ℤ} (ha : 0 ≤ a) (hb : 0 ≤ b) :
    pydubSlice xs a b = (xs.take b.toNat).drop a.toNat := by
  unfold pydubSlice
  rw [pydubIdx_of_nonneg _ ha, pydubIdx_of_nonneg _ hb, take_min_length]
  rcases le_total a.toNat xs.length with h | h
  · rw [min_eq_left h]
  · rw [min_eq_right h]
    have h1 : (xs.take b.toNat).length ≤ xs.length := by
      rw [List.length_take]; omega
    rw [List.drop_eq_nil_of_le h1, List.drop_eq_nil_of_le (le_trans h1 h)]

theorem pydubSlice_zero_nonneg (xs : List Sample) {b : ℤ} (hb : 0 ≤ b) :
    pydubSlice xs 0 b = xs.take b.toNat := by
  rw [pydubSlice_nonneg xs le_rfl hb]
  simp

theorem pydubSlice_to_length (xs : List Sample) {a : ℤ} (ha : 0 ≤ a) :
    pydubSlice xs a xs.length = xs.drop a.toNat := by
  rw [pydubSlice_nonneg xs ha (by positivity)]
  simp

/-- For a nonnegative timestamp `t`, `int((t + 0.5) * 1000) = int(t * 1000) + 500`. -/
theorem pyInt_add_half (t : ℚ) (h : 0 ≤ t) :
    pyInt ((t + 1/2) * 1000) = pyInt (t * 1000) + 500 := by
  have h1 : (t + 1/2) * 1000 = t * 1000 + (500 : ℤ) := by push_cast; ring
  rw [pyInt_of_nonneg (by positivity), pyInt_of_nonneg (by positivity), h1,
    Int.floor_add_int]

/-- Normal form of the censor-loop body for a nonnegative timestamp. -/
theorem censorStep_eq (beep audio : List Sample) (p : CensorPoint) (ht : 0 ≤ tsOf p) :
    censorStep beep audio p =
      audio.take (pyInt (tsOf p * 1000)).toNat ++ beep.take 500 ++
        audio.drop (min (pyInt (tsOf p * 1000) + 500) (audio.length : ℤ)).toNat := by
  unfold censorStep
  have hs : (0:ℤ) ≤ pyInt (tsOf p * 1000) := pyInt_nonneg (by positivity)
  have he : (0:ℤ) ≤ min (pyInt ((tsOf p + 1/2) * 1000)) (audio.length : ℤ) := by
    have : (0:ℤ) ≤ pyInt ((tsOf p + 1/2) * 1000) := pyInt_nonneg (by positivity)
    positivity
  rw [pydubSlice_zero_nonneg _ hs, pydubSlice_to_length _ he,
    pydubSlice_zero_nonneg _ (by norm_num : (0:ℤ) ≤ 500), pyInt_add_half _ ht]
  norm_num
  omega

/-! ### The overwrite mask of the censor loop -/

theorem maskGet_assoc (m w o : Option Sample) :
    maskGet m (maskGet w o) = maskGet (maskGet m w) o := by
  cases m <;> rfl

theorem maskGet_idem (m o : Option Sample) :
    maskGet m (maskGet m o) = maskGet m o := by
  cases m <;> rfl

/-- Element view of a splice `x[:s] ++ b ++ x[s+w:]` with the window fully
inside `x`. -/
theorem splice_getElem (x b : List Sample) (s w : ℕ) (hb : b.length = w)
    (hx : s + w ≤ x.length) (i : ℕ) :
    (x.take s ++ b ++ x.drop (s + w))[i]? =
      if s ≤ i ∧ i < s + w then b[i - s]? else x[i]? := by
  have hlenA : (x.take s).length = s := by rw [List.length_take]; omega
  by_cases h1 : i < s
  · rw [List.getElem?_append_left (by rw [List.length_append, hlenA]; omega),
      List.getElem?_append_left (by rw [hlenA]; omega), List.getElem?_take,
      if_pos h1, if_neg (by omega)]
  · by_cases h2 : i < s + w
    · rw [List.getElem?_append_left (by rw [List.length_append, hlenA]; omega),
        List.getElem?_append_right (by rw [hlenA]; omega), hlenA,
        if_pos (by omega)]
    · rw [List.getElem?_append_right (by rw [List.length_append, hlenA]; omega),
        List.getElem?_drop, List.length_append, hlenA, hb,
        if_neg (by omega)]
      congr 1
      omega

/-- Length view of one censor step whose window fits in the buffer. -/
theorem censorStep_length (beep audio : List Sample) (p : CensorPoint)
    (hbeep : 500 ≤ beep.length) (ht : 0 ≤ tsOf p)
    (hwin : pyInt (tsOf p * 1000) + 500 ≤ (audio.length : ℤ)) :
    (censorStep beep audio p).length = audio.length := by
  have hs0 : (0:ℤ) ≤ pyInt (tsOf p * 1000) := pyInt_nonneg (by positivity)
  rw [censorStep_eq _ _ _ ht, min_eq_left hwin]
  simp only [List.length_append, List.length_take, List.length_drop]
  omega

/-- Element view of one censor step whose window fits in the buffer. -/
theorem censorStep_getElem (beep audio : List Sample) (p : CensorPoint)
    (hbeep : 500 ≤ beep.length) (ht : 0 ≤ tsOf p)
    (hwin : pyInt (tsOf p * 1000) + 500 ≤ (audio.length : ℤ)) (i : ℕ) :
    (censorStep beep audio p)[i]? = maskGet (windowVal beep p i) audio[i]? := by
  have hs0 : (0:ℤ) ≤ pyInt (tsOf p * 1000) := pyInt_nonneg (by positivity)
  have hcs : ((censorStart p : ℤ)) = pyInt (tsOf p * 1000) :=
    Int.toNat_of_nonneg hs0
  have hlenB : (beep.take 500).length = 500 := by rw [List.length_take]; omega
  rw [censorStep_eq _ _ _ ht, min_eq_left hwin,
    show (pyInt (tsOf p * 1000)).toNat = censorStart p from rfl,
    show (pyInt (tsOf p * 1000) + 500).toNat = censorStart p + 500 by omega,
    splice_getElem audio (beep.take 500) (censorStart p) 500 hlenB (by omega) i]
  unfold windowVal
  by_cases hc : censorStart p ≤ i ∧ i < censorStart p + 500
  · rw [if_pos hc, if_pos hc,
      List.getElem?_eq_getElem (show i - censorStart p < (beep.take 500).length by omega)]
    rfl
  · rw [if_neg hc, if_neg hc]
    rfl

/-- Length and element view of the whole censor loop when every window
fits in the buffer: position `i` holds the beep value of the last point
covering `i`, and the original sample elsewhere. -/
theorem censor_fold_view (beep : List Sample) (ps : List CensorPoint) :
    ∀ (x : List Sample), 500 ≤ beep.length →
    (∀ p ∈ ps, 0 ≤ tsOf p ∧ pyInt (tsOf p * 1000) + 500 ≤ (x.length : ℤ)) →
    (ps.foldl (censorStep beep) x).length = x.length ∧
      ∀ i : ℕ, (ps.foldl (censorStep beep) x)[i]? = maskGet (censorMask beep ps i) x[i]? := by
  induction ps with
  | nil =>
    intro x _ _
    exact ⟨rfl, fun i => rfl⟩
  | cons p rest ih =>
    intro x hbeep hps
    obtain ⟨htp, hwp⟩ := hps p (List.mem_cons_self p rest)
    have hstep_len : (censorStep beep x p).length = x.length :=
      censorStep_length beep x p hbeep htp hwp
    have hrest : ∀ q ∈ rest, 0 ≤ tsOf q ∧
        pyInt (tsOf q * 1000) + 500 ≤ ((censorStep beep x p).length : ℤ) := by
      intro q hq
      rw [hstep_len]
      exact hps q (List.mem_cons_of_mem p hq)
    obtain ⟨ihlen, ihel⟩ := ih (censorStep beep x p) hbeep hrest
    rw [List.foldl_cons]
    refine ⟨by rw [ihlen, hstep_len], fun i => ?_⟩
    rw [ihel i, censorStep_getElem beep x p hbeep htp hwp i,
      show censorMask beep (p :: rest) i
        = maskGet (censorMask beep rest i) (windowVal beep p i) from rfl]
    exact maskGet_assoc _ _ _

/-! ### Evaluation helpers for concrete inputs -/

theorem pyInt_eval_nonneg {q : ℚ} {z : ℤ} (h1 : (z:ℚ) ≤ q) (h2 : q < (z:ℚ) + 1)
    (h0 : (0:ℚ) ≤ q) : pyInt q = z := by
  rw [pyInt_of_nonneg h0]
  exact Int.floor_eq_iff.mpr ⟨h1, by exact_mod_cast h2⟩

theorem pyInt_eval_neg {q : ℚ} {z : ℤ} (h1 : (z:ℚ) - 1 < q) (h2 : q ≤ (z:ℚ))
    (h0 : q < 0) : pyInt q = z := by
  unfold pyInt
  rw [if_pos h0]
  exact Int.ceil_eq_iff.mpr ⟨by exact_mod_cast h1, h2⟩

theorem apply_censorship_singleton (beep audio : List Sample) (p : CensorPoint) :
    apply_censorship beep audio [p] = censorStep beep audio p := by
  unfold apply_censorship sortPoints
  rw [List.mergeSort_singleton, List.foldl_cons, List.foldl_nil]

/-! ### C1: length preservation -/

/-- C1, counterexample: the censor window of a point at `t = 0.2` s overruns
a 0.4 s buffer, and `apply_censorship` then returns a buffer of 700 ms
instead of 400 ms — the length is NOT preserved for this valid censor
list, refuting `len(apply_censorship(buf, points)) == len(buf)`. -/
theorem C1_counterexample :
    (apply_censorship (List.replicate 500 9) (List.replicate 400 0)
        [{ seconds := some (1/5), reason := none }]).length
      ≠ (List.replicate 400 0).length := by
  rw [apply_censorship_singleton,
    censorStep_eq _ _ _ (by norm_num [tsOf]),
    show tsOf { seconds := some (1/5), reason := none } = 1/5 from rfl,
    show pyInt ((1/5 : ℚ) * 1000) = 200 from
      pyInt_eval_nonneg (by norm_num) (by norm_num) (by norm_num)]
  simp only [List.length_append, List.length_take, List.length_drop, List.length_replicate]
  omega

/-- C1, amended: `apply_censorship` preserves the buffer length provided
every censor point is nonnegative and its whole 0.5 s window fits inside
the buffer (`int(t*1000) + 500 <= len(buf)`), and the beep source is at
least 500 ms long; a window that overruns the end grows the buffer
instead (see the counterexample). -/
theorem C1_amended (beep audio : List Sample) (points : List CensorPoint)
    (hbeep : 500 ≤ beep.length)
    (hpts : ∀ p ∈ points, 0 ≤ tsOf p ∧ pyInt (tsOf p * 1000) + 500 ≤ (audio.length : ℤ)) :
    (apply_censorship beep audio points).length = audio.length := by
  refine (censor_fold_view beep (sortPoints points) audio hbeep ?_).1
  intro p hp
  exact hpts p (by simpa [sortPoints, List.mem_mergeSort] using hp)

/-- C1, witness: a 600 ms buffer, a 500 ms beep and one censor point at
`t = 0.05` s (window `[50, 550)` fits); the length is preserved. -/
theorem C1_witness :
    500 ≤ (List.replicate 500 (9:ℤ)).length ∧
    (apply_censorship (List.replicate 500 9) (List.replicate 600 0)
        [{ seconds := some (1/20), reason := none }]).length
      = (List.replicate 600 0).length := by
  refine ⟨by simp, C1_amended _ _ _ (by simp) ?_⟩
  intro p hp
  simp only [List.mem_singleton] at hp
  subst hp
  refine ⟨by norm_num [tsOf], ?_⟩
  rw [show tsOf { seconds := some (1/20), reason := none } = 1/20 from rfl,
    show pyInt ((1/20 : ℚ) * 1000) = 50 from
      pyInt_eval_nonneg (by norm_num) (by norm_num) (by norm_num)]
  simp

/-! ### C7: idempotence under re-application -/

theorem censorStep_length_eq (beep audio : List Sample) (p : CensorPoint)
    (ht : 0 ≤ tsOf p) :
    (censorStep beep audio p).length =
      min (pyInt (tsOf p * 1000)).toNat audio.length + min 500 beep.length +
        (audio.length - (min (pyInt (tsOf p * 1000) + 500) (audio.length : ℤ)).toNat) := by
  rw [censorStep_eq _ _ _ ht]
  simp only [List.length_append, List.length_take, List.length_drop]

/-- C7, counterexample: one censor point at `t = 1` s on a 0.4 s buffer;
the first application appends a 500 ms beep (length 900 ms) and the second
application appends another (length 1400 ms), so applying the same censor
list twice is NOT the same as applying it once. -/
theorem C7_counterexample :
    apply_censorship (List.replicate 500 7)
        (apply_censorship (List.replicate 500 7) (List.replicate 400 0)
          [{ seconds := some 1, reason := none }])
        [{ seconds := some 1, reason := none }]
      ≠ apply_censorship (List.replicate 500 7) (List.replicate 400 0)
          [{ seconds := some 1, reason := none }] := by
  have hts : tsOf { seconds := some (1:ℚ), reason := none } = 1 := rfl
  have hpy : pyInt ((1:ℚ) * 1000) = 1000 :=
    pyInt_eval_nonneg (by norm_num) (by norm_num) (by norm_num)
  have hlen1 : (censorStep (List.replicate 500 7) (List.replicate 400 0)
      { seconds := some (1:ℚ), reason := none }).length = 900 := by
    rw [censorStep_length_eq _ _ _ (by norm_num [tsOf]), hts, hpy]
    simp only [List.length_replicate]
    omega
  have hlen2 : (censorStep (List.replicate 500 7)
      (censorStep (List.replicate 500 7) (List.replicate 400 0)
        { seconds := some (1:ℚ), reason := none })
      { seconds := some (1:ℚ), reason := none }).length = 1400 := by
    rw [censorStep_length_eq _ _ _ (by norm_num [tsOf]), hts, hpy, hlen1]
    simp only [List.length_replicate]
    omega
  intro h
  rw [apply_censorship_singleton, apply_censorship_singleton] at h
  have h' := congrArg List.length h
  rw [hlen2, hlen1] at h'
  omega

/-- C7, amended: re-applying the same censor list is idempotent provided
every point's 0.5 s window fits inside the buffer (and the beep source is
at least 500 ms): the same windows are overwritten with the same beep
content both times.  For a point past the buffer end each application
appends another beep, so idempotence fails there (see the
counterexample). -/
theorem C7_amended (beep audio : List Sample) (points : List CensorPoint)
    (hbeep : 500 ≤ beep.length)
    (hpts : ∀ p ∈ points, 0 ≤ tsOf p ∧ pyInt (tsOf p * 1000) + 500 ≤ (audio.length : ℤ)) :
    apply_censorship beep (apply_censorship beep audio points) points
      = apply_censorship beep audio points := by
  have hmem : ∀ p ∈ sortPoints points,
      0 ≤ tsOf p ∧ pyInt (tsOf p * 1000) + 500 ≤ (audio.length : ℤ) := by
    intro p hp
    exact hpts p (by simpa [sortPoints, List.mem_mergeSort] using hp)
  obtain ⟨h1len, h1el⟩ := censor_fold_view beep (sortPoints points) audio hbeep hmem
  have hmem2 : ∀ p ∈ sortPoints points, 0 ≤ tsOf p ∧
      pyInt (tsOf p * 1000) + 500 ≤
        (((sortPoints points).foldl (censorStep beep) audio).length : ℤ) := by
    rw [h1len]
    exact hmem
  obtain ⟨h2len, h2el⟩ :=
    censor_fold_view beep (sortPoints points)
      ((sortPoints points).foldl (censorStep beep) audio) hbeep hmem2
  show (sortPoints points).foldl (censorStep beep)
      ((sortPoints points).foldl (censorStep beep) audio)
    = (sortPoints points).foldl (censorStep beep) audio
  apply List.ext_getElem?
  intro i
  rw [h2el i, h1el i, maskGet_idem]

/-- C7, witness: a 600 ms buffer, a 500 ms beep and one censor point at
`t = 0.05` s; applying the censor list twice equals applying it once. -/
theorem C7_witness :
    apply_censorship (List.replicate 500 9)
        (apply_censorship (List.replicate 500 9) (List.replicate 600 0)
          [{ seconds := some (1/20), reason := none }])
        [{ seconds := some (1/20), reason := none }]
      = apply_censorship (List.replicate 500 9) (List.replicate 600 0)
          [{ seconds := some (1/20), reason := none }] := by
  refine C7_amended _ _ _ (by simp) ?_
  intro p hp
  simp only [List.mem_singleton] at hp
  subst hp
  refine ⟨by norm_num [tsOf], ?_⟩
  rw [show tsOf { seconds := some (1/20), reason := none } = 1/20 from rfl,
    show pyInt ((1/20 : ℚ) * 1000) = 50 from
      pyInt_eval_nonneg (by norm_num) (by norm_num) (by norm_num)]
  simp

/-! ### C2: boundary clamp and past-the-end points -/

/-- C2, counterexample: a censor point whose start position is exactly at
the buffer end (`t = 0.003` s on a 3 ms buffer) is NOT skipped: the whole
500 ms beep is appended and the buffer changes. -/
theorem C2_counterexample :
    apply_censorship (List.replicate 500 9) [0, 0, 0]
        [{ seconds := some (3/1000), reason := none }] ≠ [0, 0, 0] := by
  intro h
  have h' := congrArg List.length h
  rw [apply_censorship_singleton,
    censorStep_length_eq _ _ _ (by norm_num [tsOf]),
    show tsOf { seconds := some (3/1000), reason := none } = 3/1000 from rfl,
    show pyInt ((3/1000 : ℚ) * 1000) = 3 from
      pyInt_eval_nonneg (by norm_num) (by norm_num) (by norm_num)] at h'
  simp only [List.length_replicate, List.length_cons, List.length_nil] at h'
  omega

/-- C2, amended: for a point with `t >= 0` whose 0.5 s window reaches or
passes the buffer end, `end_ms` is clamped to the buffer length (no index
error: the operation is total), but the buffer is NOT merely overwritten
up to its end: everything from `start_ms` on is replaced by the full
500 ms beep, so the result is `audio[:start_ms] + beep[:500]` — the buffer
grows, and a point with `start_ms >= len(audio)` appends the beep instead
of being skipped. -/
theorem C2_amended (beep audio : List Sample) (t : ℚ) (r : Option String)
    (ht : 0 ≤ t) (hover : (audio.length : ℤ) ≤ pyInt (t * 1000) + 500) :
    apply_censorship beep audio [{ seconds := some t, reason := r }]
      = audio.take (pyInt (t * 1000)).toNat ++ beep.take 500 := by
  have hts : tsOf { seconds := some t, reason := r } = t := rfl
  rw [apply_censorship_singleton, censorStep_eq _ _ _ (by rw [hts]; exact ht), hts,
    min_eq_right hover]
  simp

/-- C2, witness: the amended statement at the counterexample's input: the
point at `t = 0.003` s on the 3 ms buffer `[0,0,0]` yields
`[0,0,0] ++ beep[:500]`. -/
theorem C2_witness :
    (0:ℚ) ≤ 3/1000 ∧
    (([0, 0, 0] : List Sample).length : ℤ) ≤ pyInt ((3/1000) * 1000) + 500 ∧
    apply_censorship (List.replicate 500 9) [0, 0, 0]
        [{ seconds := some (3/1000), reason := none }]
      = ([0, 0, 0] : List Sample).take (pyInt ((3/1000) * 1000)).toNat ++
          (List.replicate 500 9).take 500 := by
  have he : pyInt ((3/1000 : ℚ) * 1000) = 3 :=
    pyInt_eval_nonneg (by norm_num) (by norm_num) (by norm_num)
  refine ⟨by norm_num, by rw [he]; norm_num, ?_⟩
  exact C2_amended _ _ _ _ (by norm_num) (by rw [he]; norm_num)

/-! ### C4: invalid clip ranges -/

/-- C4, counterexample: `extract_clip` does not fail when
`end_seconds <= start_seconds`: at `start = 5`, `end = 3` it returns an
empty clip (the operation is total; no `InvalidRange` error exists in the
code). -/
theorem C4_counterexample : extract_clip [5, 5, 5, 5, 5] 5 3 = [] := by
  unfold extract_clip
  rw [show pyInt ((5:ℚ) * 1000) = 5000 from
      pyInt_eval_nonneg (by norm_num) (by norm_num) (by norm_num),
    show pyInt ((3:ℚ) * 1000) = 3000 from
      pyInt_eval_nonneg (by norm_num) (by norm_num) (by norm_num),
    pydubSlice_nonneg _ (by norm_num) (by norm_num)]
  rfl

/-- C4, amended: `extract_clip` never fails; whenever
`0 <= end_seconds <= start_seconds` it returns the empty buffer (the empty
pydub slice, unchanged by the fades). -/
theorem C4_amended (audio : List Sample) (s e : ℚ) (h0 : 0 ≤ e) (hes : e ≤ s) :
    extract_clip audio s e = [] := by
  unfold extract_clip
  have hb : (0:ℤ) ≤ pyInt (e * 1000) := pyInt_nonneg (by positivity)
  have ha : pyInt (e * 1000) ≤ pyInt (s * 1000) :=
    pyInt_mono (mul_le_mul_of_nonneg_right hes (by norm_num))
  have hslice : pydubSlice audio (pyInt (s * 1000)) (pyInt (e * 1000)) = [] := by
    rw [pydubSlice_nonneg audio (le_trans hb ha) hb]
    apply List.drop_eq_nil_of_le
    rw [List.length_take]
    omega
  rw [hslice]
  rfl

/-- C4, witness: `extract_clip` on `[1,2,3]` with `start = 2`, `end = 1`
returns the empty buffer without error. -/
theorem C4_witness :
    (0:ℚ) ≤ 1 ∧ (1:ℚ) ≤ 2 ∧ extract_clip [1, 2, 3] 2 1 = [] :=
  ⟨by norm_num, by norm_num, C4_amended _ _ _ (by norm_num) (by norm_num)⟩

/-! ### C5: negative timestamps -/

theorem pydubIdx_of_neg (n : ℕ) {i : ℤ} (h1 : i < 0) (h2 : 0 ≤ i + n) :
    pydubIdx n i = (i + n).toNat := by
  simp only [pydubIdx]
  split_ifs <;> omega

theorem pydubSlice_neg_zero (xs : List Sample) {b : ℤ} (h1 : b < 0)
    (h2 : 0 ≤ b + xs.length) :
    pydubSlice xs 0 b = xs.take (b + xs.length).toNat := by
  unfold pydubSlice
  rw [pydubIdx_of_neg _ h1 h2, pydubIdx_of_nonneg _ le_rfl]
  simp

theorem pydubSlice_neg_to_length (xs : List Sample) {a : ℤ} (h1 : a < 0)
    (h2 : 0 ≤ a + xs.length) :
    pydubSlice xs a xs.length = xs.drop (a + xs.length).toNat := by
  unfold pydubSlice
  rw [pydubIdx_of_neg _ h1 h2, pydubIdx_of_nonneg _ (by positivity)]
  simp

theorem pydubSlice_beep (beep : List Sample) : pydubSlice beep 0 500 = beep.take 500 := by
  rw [pydubSlice_zero_nonneg _ (by norm_num : (0:ℤ) ≤ 500),
    show ((500:ℤ)).toNat = 500 from rfl]

/-- Normal form of the censor-loop body for a negative timestamp whose
whole window still resolves to in-range positions counted from the end of
the buffer. -/
theorem censorStep_neg_eq (beep audio : List Sample) (p : CensorPoint)
    (hs : pyInt (tsOf p * 1000) < 0)
    (he : pyInt ((tsOf p + 1/2) * 1000) < 0)
    (hn : 0 ≤ pyInt (tsOf p * 1000) + (audio.length : ℤ)) :
    censorStep beep audio p =
      audio.take (pyInt (tsOf p * 1000) + (audio.length : ℤ)).toNat ++ beep.take 500 ++
        audio.drop (pyInt ((tsOf p + 1/2) * 1000) + (audio.length : ℤ)).toNat := by
  have hse : pyInt (tsOf p * 1000) ≤ pyInt ((tsOf p + 1/2) * 1000) := by
    apply pyInt_mono
    nlinarith [sq_nonneg (tsOf p)]
  unfold censorStep
  rw [pydubSlice_neg_zero audio hs hn,
    min_eq_left (le_trans (le_of_lt he) (by positivity)),
    pydubSlice_neg_to_length audio he (by omega), pydubSlice_beep]

/-- C5, counterexample: a censor point with negative timestamp
`t = -0.7` s is neither rejected nor skipped: Python's negative slice
indices make the code splice the beep into the buffer counted from its
end, so the buffer IS modified (position 300 of the result holds a beep
sample, not the original sample). -/
theorem C5_counterexample :
    apply_censorship (List.replicate 500 9) (List.replicate 1000 0)
        [{ seconds := some (-7/10), reason := none }] ≠ List.replicate 1000 0 := by
  have hts : tsOf { seconds := some (-7/10 : ℚ), reason := none } = -7/10 := rfl
  have e1 : pyInt ((-7/10 : ℚ) * 1000) = -700 :=
    pyInt_eval_neg (by norm_num) (by norm_num) (by norm_num)
  have e2 : pyInt (((-7/10 : ℚ) + 1/2) * 1000) = -200 :=
    pyInt_eval_neg (by norm_num) (by norm_num) (by norm_num)
  intro h
  have h' := congrArg (fun l : List Sample => l[300]?) h
  simp only [] at h'
  rw [apply_censorship_singleton,
    censorStep_neg_eq _ _ _ (by rw [hts, e1]; norm_num) (by rw [hts, e2]; norm_num)
      (by rw [hts, e1]; simp), hts, e1, e2] at h'
  revert h'
  decide

/-- C5, amended: a negative timestamp is not rejected with a typed error
and not skipped: the code processes it through Python slice semantics, so
(when the resolved positions are in range) the 500 ms beep is spliced into
the window counted from the END of the buffer, modifying it. -/
theorem C5_amended (beep audio : List Sample) (t : ℚ) (r : Option String)
    (hs : pyInt (t * 1000) < 0)
    (he : pyInt ((t + 1/2) * 1000) < 0)
    (hn : 0 ≤ pyInt (t * 1000) + (audio.length : ℤ)) :
    apply_censorship beep audio [{ seconds := some t, reason := r }]
      = audio.take (pyInt (t * 1000) + (audio.length : ℤ)).toNat ++ beep.take 500 ++
        audio.drop (pyInt ((t + 1/2) * 1000) + (audio.length : ℤ)).toNat := by
  have hts : tsOf { seconds := some t, reason := r } = t := rfl
  rw [apply_censorship_singleton,
    censorStep_neg_eq _ _ _ (by rw [hts]; exact hs) (by rw [hts]; exact he)
      (by rw [hts]; exact hn), hts]

/-- C5, witness: the amended statement at `t = -0.7` s on a 1000 ms
buffer: the beep lands at positions `[300, 800)`. -/
theorem C5_witness :
    pyInt ((-7/10 : ℚ) * 1000) < 0 ∧
    pyInt (((-7/10 : ℚ) + 1/2) * 1000) < 0 ∧
    apply_censorship (List.replicate 500 9) (List.replicate 1000 0)
        [{ seconds := some (-7/10), reason := none }]
      = (List.replicate 1000 (0:ℤ)).take
            (pyInt ((-7/10 : ℚ) * 1000) + ((List.replicate 1000 (0:ℤ)).length : ℤ)).toNat ++
          (List.replicate 500 (9:ℤ)).take 500 ++
          (List.replicate 1000 (0:ℤ)).drop
            (pyInt (((-7/10 : ℚ) + 1/2) * 1000) + ((List.replicate 1000 (0:ℤ)).length : ℤ)).toNat := by
  have e1 : pyInt ((-7/10 : ℚ) * 1000) = -700 :=
    pyInt_eval_neg (by norm_num) (by norm_num) (by norm_num)
  have e2 : pyInt (((-7/10 : ℚ) + 1/2) * 1000) = -200 :=
    pyInt_eval_neg (by norm_num) (by norm_num) (by norm_num)
  refine ⟨by rw [e1]; norm_num, by rw [e2]; norm_num, ?_⟩
  exact C5_amended _ _ _ _ (by rw [e1]; norm_num) (by rw [e2]; norm_num)
    (by rw [e1]; simp)

/-! ### C3 and C10: the batch loop of create_clips -/

theorem fadeIn100_length (xs : List Sample) : (fadeIn100 xs).length = xs.length := by
  unfold fadeIn100
  exact List.length_mapIdx

theorem pydubIdx_le (n : ℕ) (i : ℤ) : pydubIdx n i ≤ n := by
  simp only [pydubIdx]
  split_ifs <;> omega

theorem pydubIdx_zero (n : ℕ) : pydubIdx n 0 = 0 := by
  simp only [pydubIdx]
  split_ifs <;> omega

theorem pyFrameIdx_le (n : ℕ) (j : ℤ) : pyFrameIdx n j ≤ n := by
  simp only [pyFrameIdx]
  split_ifs <;> omega

theorem pyGetFrame_length (xs : List Sample) (j : ℤ) :
    (pyGetFrame xs j).length = pyFrameIdx xs.length (j + 1) - pyFrameIdx xs.length j := by
  unfold pyGetFrame
  rw [List.length_drop, List.length_take]
  have h := pyFrameIdx_le xs.length (j + 1)
  omega

theorem pydubSlice_self_nil (xs : List Sample) :
    pydubSlice xs (xs.length : ℤ) (xs.length : ℤ) = [] := by
  unfold pydubSlice
  rw [pydubIdx_of_nonneg _ (by positivity)]
  apply List.drop_eq_nil_of_le
  rw [List.length_take]
  omega

/-- Length of a faded-out clip, as a closed arithmetic expression in the
clip length alone (the loop contributes one `get_frame` length per ramp
step). -/
theorem length_fadeOut100 (xs : List Sample) :
    (fadeOut100 xs).length
      = pydubIdx xs.length ((xs.length : ℤ) - 100) +
        ((List.range 100).map
          (fun (i : ℕ) => pyFrameIdx xs.length ((xs.length : ℤ) - 100 + (i : ℤ) + 1)
            - pyFrameIdx xs.length ((xs.length : ℤ) - 100 + (i : ℤ)))).sum := by
  unfold fadeOut100
  rw [pydubSlice_self_nil]
  simp only [List.map_nil, List.append_nil, List.length_append, List.length_flatten,
    List.map_map]
  have h1 : (pydubSlice xs 0 ((xs.length : ℤ) - 100)).length
      = pydubIdx xs.length ((xs.length : ℤ) - 100) := by
    unfold pydubSlice
    rw [List.length_drop, List.length_take, pydubIdx_zero]
    have h := pydubIdx_le xs.length ((xs.length : ℤ) - 100)
    omega
  have h2 : ∀ i ∈ List.range 100,
      (List.length ∘ fun (i : ℕ) =>
          (pyGetFrame xs ((xs.length : ℤ) - 100 + (i : ℤ))).map
            (pyMulSample (fadeOutVol i))) i
        = pyFrameIdx xs.length ((xs.length : ℤ) - 100 + i + 1)
            - pyFrameIdx xs.length ((xs.length : ℤ) - 100 + i) := by
    intro i _
    simp only [Function.comp_apply, List.length_map]
    exact pyGetFrame_length xs _
  rw [h1, List.map_congr_left h2]

theorem pyGetFrame_in_range (xs : List Sample) {j : ℤ} (h1 : 0 ≤ j)
    (h2 : j < (xs.length : ℤ)) :
    pyGetFrame xs j = [xs.getD j.toNat 0] := by
  have hj : j.toNat < xs.length := by omega
  unfold pyGetFrame pyFrameIdx
  rw [if_neg (by omega), if_neg (by omega),
    show min (j + 1).toNat xs.length = j.toNat + 1 by omega,
    show min j.toNat xs.length = j.toNat by omega]
  apply List.ext_getElem?
  intro k
  rw [List.getElem?_drop, List.getElem?_take]
  cases k with
  | zero =>
    rw [if_pos (by omega), show j.toNat + 0 = j.toNat from rfl,
      List.getElem?_eq_getElem hj, List.getD_eq_getElem xs 0 hj]
    rfl
  | succ k =>
    rw [if_neg (by omega)]
    rfl

theorem flatten_map_singleton {α β : Type} (l : List α) (g : α → β) :
    (l.map (fun a => [g a])).flatten = l.map g := by
  induction l with
  | nil => rfl
  | cons a t ih =>
    simp only [List.map_cons, List.flatten_cons, List.singleton_append, ih]

/-- On clips of at least 100 ms, `fade_out(100)` is the familiar
length-preserving ramp over the last 100 ms. -/
theorem fadeOut100_eq_of_ge (xs : List Sample) (h : 100 ≤ xs.length) :
    fadeOut100 xs
      = xs.take (xs.length - 100) ++
        (List.range 100).map
          (fun i => pyMulSample (fadeOutVol i) (xs.getD (xs.length - 100 + i) 0)) := by
  unfold fadeOut100
  rw [pydubSlice_self_nil]
  simp only [List.map_nil, List.append_nil]
  have hmap : ∀ i ∈ List.range 100,
      (pyGetFrame xs ((xs.length : ℤ) - 100 + i)).map (pyMulSample (fadeOutVol i))
        = [pyMulSample (fadeOutVol i) (xs.getD (xs.length - 100 + i) 0)] := by
    intro i hi
    rw [List.mem_range] at hi
    rw [pyGetFrame_in_range xs (by omega) (by omega),
      show (((xs.length : ℤ) - 100 + i)).toNat = xs.length - 100 + i by omega]
    rfl
  rw [List.map_congr_left hmap, flatten_map_singleton]
  congr 1
  rw [pydubSlice_zero_nonneg _ (by omega : (0:ℤ) ≤ (xs.length : ℤ) - 100)]
  congr 1
  omega

theorem fadeOut100_length_of_ge (xs : List Sample) (h : 100 ≤ xs.length) :
    (fadeOut100 xs).length = xs.length := by
  rw [fadeOut100_eq_of_ge xs h, List.length_append, List.length_take, List.length_map,
    List.length_range]
  omega

theorem fadeOut100_getElem_of_ge (xs : List Sample) (h : 100 ≤ xs.length) (i : ℕ) :
    (fadeOut100 xs)[i]? = (xs[i]?).map
      (fun x => if xs.length ≤ i + 100 then pyMulSample (fadeOutVol (i + 100 - xs.length)) x
        else x) := by
  rw [fadeOut100_eq_of_ge xs h]
  by_cases h1 : i < xs.length - 100
  · rw [List.getElem?_append_left (by rw [List.length_take]; omega), List.getElem?_take,
      if_pos h1]
    cases hx : xs[i]? with
    | none => rfl
    | some x =>
      simp only [Option.map_some']
      rw [if_neg (by omega)]
  · by_cases h2 : i < xs.length
    · rw [List.getElem?_append_right (by rw [List.length_take]; omega),
        List.length_take, show min (xs.length - 100) xs.length = xs.length - 100 by omega,
        List.getElem?_map,
        List.getElem?_range (show i - (xs.length - 100) < 100 by omega),
        List.getElem?_eq_getElem h2]
      simp only [Option.map_some']
      rw [if_pos (by omega),
        show xs.length - 100 + (i - (xs.length - 100)) = i by omega,
        List.getD_eq_getElem xs 0 h2,
        show i - (xs.length - 100) = i + 100 - xs.length by omega]
    · rw [List.getElem?_eq_none (by
          rw [List.length_append, List.length_take, List.length_map, List.length_range]
          omega),
        List.getElem?_eq_none (by omega)]
      rfl

/-- Length of `extract_clip` when the sliced clip is at least 100 ms (the
regime where both fades preserve length). -/
theorem extract_clip_length_of_ge (audio : List Sample) (s e : ℚ) (h0 : 0 ≤ s)
    (he : 0 ≤ e)
    (hlong : 100 ≤ min (pyInt (e * 1000)).toNat audio.length - (pyInt (s * 1000)).toNat) :
    (extract_clip audio s e).length
      = min (pyInt (e * 1000)).toNat audio.length - (pyInt (s * 1000)).toNat := by
  unfold extract_clip
  have hsl : (pydubSlice audio (pyInt (s * 1000)) (pyInt (e * 1000))).length
      = min (pyInt (e * 1000)).toNat audio.length - (pyInt (s * 1000)).toNat := by
    rw [pydubSlice_nonneg audio (pyInt_nonneg (by positivity)) (pyInt_nonneg (by positivity))]
    simp [List.length_drop, List.length_take]
  rw [fadeOut100_length_of_ge _ (by rw [fadeIn100_length, hsl]; omega), fadeIn100_length,
    hsl]

theorem create_clips_go_map_fst (stem : String) (audio : List Sample) :
    ∀ (specs : List ClipSpec) (k : ℕ),
      (create_clips_go stem audio k specs).map Prod.fst
        = (List.range specs.length).map (fun j => clipFileName stem (k + j)) := by
  intro specs
  induction specs with
  | nil => intro k; rfl
  | cons c rest ih =>
    intro k
    simp only [create_clips_go, List.map_cons, List.length_cons, List.range_succ_eq_map,
      List.map_map]
    refine congrArg₂ List.cons (congrArg (clipFileName stem) (by omega)) ?_
    rw [ih (k + 1)]
    apply List.map_congr_left
    intro j _
    simp only [Function.comp_apply]
    exact congrArg (clipFileName stem) (by omega)

theorem create_clips_go_map_snd (stem : String) (audio : List Sample) :
    ∀ (specs : List ClipSpec) (k : ℕ),
      (create_clips_go stem audio k specs).map Prod.snd
        = specs.map (fun c => extract_clip audio (c.start_seconds.getD 0)
            (c.end_seconds.getD (c.start_seconds.getD 0 + 30))) := by
  intro specs
  induction specs with
  | nil => intro k; rfl
  | cons c rest ih =>
    intro k
    simp only [create_clips_go, List.map_cons]
    exact congrArg _ (ih (k + 1))

/-- C3, counterexample: three clip specs where spec #2 has `end < start`
(`[0, 0.15]`, `[0.2, 0.1]`, `[0.25, 0.39]` on a 400 ms buffer).
`create_clips` does NOT return success/error(InvalidRange)/success: no
error is recorded anywhere — it produces three equally "successful"
artifacts, and the invalid spec #2 yields a written, empty clip file
rather than being withheld from disk. -/
theorem C3_counterexample :
    (create_clips "ep" (List.replicate 400 0)
        [{ start_seconds := some 0, end_seconds := some (3/20), description := none },
         { start_seconds := some (1/5), end_seconds := some (1/10), description := none },
         { start_seconds := some (1/4), end_seconds := some (39/100), description := none }]).map
        (fun a => (a.1, a.2.length))
      = [("ep_clip_01.wav", 150), ("ep_clip_02.wav", 0), ("ep_clip_03.wav", 140)] := by
  have e0 : pyInt ((0:ℚ) * 1000) = 0 :=
    pyInt_eval_nonneg (by norm_num) (by norm_num) (by norm_num)
  have e1 : pyInt ((3/20:ℚ) * 1000) = 150 :=
    pyInt_eval_nonneg (by norm_num) (by norm_num) (by norm_num)
  have e2a : pyInt ((1/5:ℚ) * 1000) = 200 :=
    pyInt_eval_nonneg (by norm_num) (by norm_num) (by norm_num)
  have e2b : pyInt ((1/10:ℚ) * 1000) = 100 :=
    pyInt_eval_nonneg (by norm_num) (by norm_num) (by norm_num)
  have e3a : pyInt ((1/4:ℚ) * 1000) = 250 :=
    pyInt_eval_nonneg (by norm_num) (by norm_num) (by norm_num)
  have e3b : pyInt ((39/100:ℚ) * 1000) = 390 :=
    pyInt_eval_nonneg (by norm_num) (by norm_num) (by norm_num)
  have l1 : (extract_clip (List.replicate 400 0) 0 (3/20)).length = 150 := by
    rw [extract_clip_length_of_ge _ _ _ (by norm_num) (by norm_num)
        (by rw [e0, e1]; simp only [List.length_replicate]; omega), e0, e1]
    simp only [List.length_replicate]
    omega
  have l2 : (extract_clip (List.replicate 400 0) (1/5) (1/10)).length = 0 := by
    unfold extract_clip
    rw [e2a, e2b, pydubSlice_nonneg _ (by norm_num) (by norm_num),
      show ((List.replicate 400 (0:ℤ)).take (Int.toNat 100)).drop (Int.toNat 200) = []
        from by
          apply List.drop_eq_nil_of_le
          rw [List.length_take, List.length_replicate]
          omega]
    rfl
  have l3 : (extract_clip (List.replicate 400 0) (1/4) (39/100)).length = 140 := by
    rw [extract_clip_length_of_ge _ _ _ (by norm_num) (by norm_num)
        (by rw [e3a, e3b]; simp only [List.length_replicate]; omega), e3a, e3b]
    simp only [List.length_replicate]
    omega
  simp only [create_clips, create_clips_go, Option.getD_some, List.map_cons, List.map_nil]
  rw [l1, l2, l3]
  rfl

/-- C3, amended: `create_clips` produces exactly one artifact per input
spec, in input order, named `<stem>_clip_<NN>.wav` with `NN` the 1-based
input index zero-padded to two digits; but no per-spec error result
exists: an invalid range yields a written empty clip, not a recorded
error (and a genuine exception would abort the whole batch, since the
loop has no try/except). -/
theorem C3_amended (stem : String) (audio : List Sample) (specs : List ClipSpec) :
    (create_clips stem audio specs).map Prod.fst
      = (List.range specs.length).map (clipFileName stem) := by
  rw [create_clips, create_clips_go_map_fst]
  simp

/-- C10: in `create_clips`, a missing `start_seconds` is read as 0 and a
missing `end_seconds` as `start + 30`, and every spec — even one with no
bounds at all — is passed to `extract_clip` with those defaulted bounds
rather than rejected: the clip contents are exactly
`extract_clip(audio, spec.get('start_seconds', 0),
spec.get('end_seconds', start + 30))`, one per spec. -/
theorem C10_defaults (stem : String) (audio : List Sample) (specs : List ClipSpec) :
    (create_clips stem audio specs).map Prod.snd
      = specs.map (fun c => extract_clip audio (c.start_seconds.getD 0)
          (c.end_seconds.getD (c.start_seconds.getD 0 + 30))) := by
  rw [create_clips, create_clips_go_map_snd]

/-! ### C8: fades on extracted clips -/

theorem fadeIn100_getElem (xs : List Sample) (i : ℕ) :
    (fadeIn100 xs)[i]? = (xs[i]?).map
      (fun x => if i < 100 then pyMulSample (fadeInVol i) x else x) := by
  unfold fadeIn100
  rw [List.getElem?_mapIdx]

/-- C8, counterexample: a 150 ms clip (shorter than 200 ms) is NOT left
unfaded: `extract_clip` still applies both fades, so the result differs
from the bare slice — its first sample is scaled from 1000 down to 0 by
the fade-in ramp. -/
theorem C8_counterexample :
    extract_clip (List.replicate 400 1000) 0 (3/20)
      ≠ (List.replicate 400 (1000:ℤ)).take 150 := by
  have hslice : pydubSlice (List.replicate 400 (1000:ℤ)) (pyInt ((0:ℚ) * 1000))
      (pyInt ((3/20:ℚ) * 1000)) = List.replicate 150 1000 := by
    rw [show pyInt ((0:ℚ) * 1000) = 0 from
        pyInt_eval_nonneg (by norm_num) (by norm_num) (by norm_num),
      show pyInt ((3/20:ℚ) * 1000) = 150 from
        pyInt_eval_nonneg (by norm_num) (by norm_num) (by norm_num),
      pydubSlice_nonneg _ (by norm_num) (by norm_num)]
    simp [List.take_replicate]
  have hmul : pyMulSample (fadeInVol 0) 1000 = 0 := by
    unfold pyMulSample fadeInVol dbMinus120
    norm_num
  have hLHS : (extract_clip (List.replicate 400 1000) 0 (3/20))[0]? = some 0 := by
    unfold extract_clip
    rw [hslice,
      fadeOut100_getElem_of_ge (fadeIn100 (List.replicate 150 1000))
        (by rw [fadeIn100_length, List.length_replicate]; omega) 0,
      fadeIn100_getElem, fadeIn100_length, List.length_replicate, List.getElem?_replicate]
    norm_num [hmul]
  have hRHS : (((List.replicate 400 (1000:ℤ)).take 150))[0]? = some 1000 := by
    rw [List.getElem?_take]
    simp [List.getElem?_replicate]
  intro h
  have h' := congrArg (fun l : List Sample => l[0]?) h
  simp only [] at h'
  rw [hLHS, hRHS] at h'
  simp at h'

/-- C8, amended: `extract_clip` always applies the linear 100 ms fade-in
and 100 ms fade-out — also to clips shorter than 200 ms (no skip, no
warning; see the counterexample).  For a clip `c` of at least 200 ms the
result has the same length as `c`, samples in the first 100 ms scaled by
the fade-in ramp, samples in the last 100 ms scaled by the fade-out ramp,
and all samples in between unchanged. -/
theorem C8_amended (audio : List Sample) (s e : ℚ) (clp : List Sample)
    (hc : pydubSlice audio (pyInt (s * 1000)) (pyInt (e * 1000)) = clp)
    (hlen : 200 ≤ clp.length) (i : ℕ) :
    (extract_clip audio s e).length = clp.length ∧
    (i < 100 → (extract_clip audio s e)[i]? = (clp[i]?).map (pyMulSample (fadeInVol i))) ∧
    (100 ≤ i → i + 100 < clp.length → (extract_clip audio s e)[i]? = clp[i]?) ∧
    (100 ≤ i → clp.length ≤ i + 100 →
      (extract_clip audio s e)[i]? =
        (clp[i]?).map (pyMulSample (fadeOutVol (i + 100 - clp.length)))) := by
  unfold extract_clip
  rw [hc]
  refine ⟨by
    rw [fadeOut100_length_of_ge (fadeIn100 clp) (by rw [fadeIn100_length]; omega),
      fadeIn100_length], ?_, ?_, ?_⟩
  · intro hi
    rw [fadeOut100_getElem_of_ge (fadeIn100 clp) (by rw [fadeIn100_length]; omega) i,
      fadeIn100_getElem, fadeIn100_length]
    cases hx : clp[i]? with
    | none => rfl
    | some x =>
      simp only [Option.map_some']
      rw [if_pos hi, if_neg (by omega)]
  · intro h1 h2
    rw [fadeOut100_getElem_of_ge (fadeIn100 clp) (by rw [fadeIn100_length]; omega) i,
      fadeIn100_getElem, fadeIn100_length]
    cases hx : clp[i]? with
    | none => rfl
    | some x =>
      simp only [Option.map_some']
      rw [if_neg (by omega), if_neg (by omega)]
  · intro h1 h2
    rw [fadeOut100_getElem_of_ge (fadeIn100 clp) (by rw [fadeIn100_length]; omega) i,
      fadeIn100_getElem, fadeIn100_length]
    cases hx : clp[i]? with
    | none => rfl
    | some x =>
      simp only [Option.map_some']
      rw [if_neg (show ¬ i < 100 by omega), if_pos (show clp.length ≤ i + 100 from h2)]

/-- C8, witness: a 250 ms clip out of a 300 ms buffer keeps its 250 ms
length through both fades. -/
theorem C8_witness :
    pydubSlice (List.replicate 300 (1000:ℤ)) (pyInt ((0:ℚ) * 1000)) (pyInt ((1/4:ℚ) * 1000))
        = List.replicate 250 (1000:ℤ) ∧
    200 ≤ (List.replicate 250 (1000:ℤ)).length ∧
    (extract_clip (List.replicate 300 1000) 0 (1/4)).length
      = (List.replicate 250 (1000:ℤ)).length := by
  have hc : pydubSlice (List.replicate 300 (1000:ℤ)) (pyInt ((0:ℚ) * 1000))
      (pyInt ((1/4:ℚ) * 1000)) = List.replicate 250 1000 := by
    rw [show pyInt ((0:ℚ) * 1000) = 0 from
        pyInt_eval_nonneg (by norm_num) (by norm_num) (by norm_num),
      show pyInt ((1/4:ℚ) * 1000) = 250 from
        pyInt_eval_nonneg (by norm_num) (by norm_num) (by norm_num),
      pydubSlice_nonneg _ (by norm_num) (by norm_num)]
    simp [List.take_replicate]
  exact ⟨hc, by simp, (C8_amended _ _ _ _ hc (by simp) 0).1⟩

/-! ### C9: clip duration fidelity -/

/-- C9, counterexample: the duration claim fails for short clips.  A
99 ms slice (`s = 0`, `e = 0.099` on a 1000 ms buffer) comes back from
`extract_clip` with 197 ms: `fade_out(100)` computes fade start
`99 - 100 = -1`, its `self[:-1]` keeps 98 frames, and the 100-step
`get_frame` loop re-reads 99 more frames through wrapped negative
indices, so `|197 - round(99)| = 98`, far outside one sample. -/
theorem C9_counterexample :
    ¬ |((extract_clip (List.replicate 1000 0) 0 (99/1000)).length : ℤ)
        - round (((99/1000 : ℚ) - 0) * 1000)| ≤ 1 := by
  have e0 : pyInt ((0:ℚ) * 1000) = 0 :=
    pyInt_eval_nonneg (by norm_num) (by norm_num) (by norm_num)
  have e1 : pyInt ((99/1000:ℚ) * 1000) = 99 :=
    pyInt_eval_nonneg (by norm_num) (by norm_num) (by norm_num)
  have hsl : (pydubSlice (List.replicate 1000 (0:ℤ)) (pyInt ((0:ℚ) * 1000))
      (pyInt ((99/1000:ℚ) * 1000))).length = 99 := by
    rw [e0, e1, pydubSlice_nonneg _ (by norm_num) (by norm_num),
      List.length_drop, List.length_take, List.length_replicate]
    omega
  have hlen : (extract_clip (List.replicate 1000 0) 0 (99/1000)).length = 197 := by
    unfold extract_clip
    rw [length_fadeOut100, fadeIn100_length, hsl]
    decide
  have hr : round (((99/1000 : ℚ) - 0) * 1000) = 99 := by
    rw [show ((99/1000 : ℚ) - 0) * 1000 = 99 by norm_num, round_eq]
    norm_num
  intro h
  rw [hlen, hr, abs_le] at h
  omega

/-- C9, amended: the duration-fidelity bound holds for clips of at least
100 ms: for `0 <= s < e <= duration(buf)` with
`int(e*1000) >= int(s*1000) + 100`, the extracted clip's length (in the
model's millisecond sample unit) is `int(e*1000) - int(s*1000)`, which is
within one sample of `round((e - s) * 1000)`.  Shorter clips are garbled
by `fade_out(100)`'s negative fade start (see the counterexample). -/
theorem C9_amended (audio : List Sample) (s e : ℚ) (h0 : 0 ≤ s) (hse : s < e)
    (hdur : e * 1000 ≤ (audio.length : ℚ))
    (hlong : pyInt (s * 1000) + 100 ≤ pyInt (e * 1000)) :
    |((extract_clip audio s e).length : ℤ) - round ((e - s) * 1000)| ≤ 1 := by
  have hs0 : (0:ℚ) ≤ s * 1000 := by positivity
  have he0 : (0:ℚ) ≤ e * 1000 := by nlinarith
  have hbn : ⌊e * 1000⌋ ≤ (audio.length : ℤ) := by
    have := Int.floor_mono hdur
    rwa [Int.floor_natCast] at this
  have hab : ⌊s * 1000⌋ ≤ ⌊e * 1000⌋ := Int.floor_mono (by nlinarith)
  have ha0 : 0 ≤ ⌊s * 1000⌋ := Int.floor_nonneg.mpr hs0
  have hlong100 : ⌊s * 1000⌋ + 100 ≤ ⌊e * 1000⌋ := by
    rwa [pyInt_of_nonneg hs0, pyInt_of_nonneg he0] at hlong
  rw [extract_clip_length_of_ge _ _ _ h0 (by linarith)
      (by rw [pyInt_of_nonneg hs0, pyInt_of_nonneg he0]; omega),
    pyInt_of_nonneg hs0, pyInt_of_nonneg he0,
    show min (⌊e * 1000⌋).toNat audio.length = (⌊e * 1000⌋).toNat by omega,
    show (((⌊e * 1000⌋).toNat - (⌊s * 1000⌋).toNat : ℕ) : ℤ) = ⌊e * 1000⌋ - ⌊s * 1000⌋
      by omega,
    round_eq, show (e - s) * 1000 = e * 1000 - s * 1000 by ring]
  have f1 := Int.floor_le (s * 1000)
  have f2 := Int.lt_floor_add_one (s * 1000)
  have f3 := Int.floor_le (e * 1000)
  have f4 := Int.lt_floor_add_one (e * 1000)
  have f5 := Int.floor_le (e * 1000 - s * 1000 + 1/2)
  have f6 := Int.lt_floor_add_one (e * 1000 - s * 1000 + 1/2)
  rw [abs_le]
  constructor
  · have hq : (-2 : ℚ) <
        ((⌊e * 1000⌋ - ⌊s * 1000⌋ - ⌊e * 1000 - s * 1000 + 1/2⌋ : ℤ) : ℚ) := by
      push_cast
      linarith
    have h2 : (-2 : ℤ) < ⌊e * 1000⌋ - ⌊s * 1000⌋ - ⌊e * 1000 - s * 1000 + 1/2⌋ := by
      exact_mod_cast hq
    omega
  · have hq : ((⌊e * 1000⌋ - ⌊s * 1000⌋ - ⌊e * 1000 - s * 1000 + 1/2⌋ : ℤ) : ℚ) < 2 := by
      push_cast
      linarith
    have h2 : (⌊e * 1000⌋ - ⌊s * 1000⌋ - ⌊e * 1000 - s * 1000 + 1/2⌋ : ℤ) < 2 := by
      exact_mod_cast hq
    omega

/-- C9, witness: the 250 ms clip `[0, 0.25]` out of a 300 ms buffer:
`|250 - round(0.25 * 1000)| <= 1`. -/
theorem C9_witness :
    (0:ℚ) ≤ 0 ∧ (0:ℚ) < 1/4 ∧
    (1/4 : ℚ) * 1000 ≤ ((List.replicate 300 (0:ℤ)).length : ℚ) ∧
    pyInt ((0:ℚ) * 1000) + 100 ≤ pyInt ((1/4:ℚ) * 1000) ∧
    |((extract_clip (List.replicate 300 0) 0 (1/4)).length : ℤ) -
        round ((1/4 - 0 : ℚ) * 1000)| ≤ 1 := by
  have e0 : pyInt ((0:ℚ) * 1000) = 0 :=
    pyInt_eval_nonneg (by norm_num) (by norm_num) (by norm_num)
  have e1 : pyInt ((1/4:ℚ) * 1000) = 250 :=
    pyInt_eval_nonneg (by norm_num) (by norm_num) (by norm_num)
  refine ⟨le_refl 0, by norm_num, by norm_num [List.length_replicate],
    by rw [e0, e1]; norm_num, ?_⟩
  exact C9_amended _ _ _ (le_refl 0) (by norm_num)
    (by norm_num [List.length_replicate]) (by rw [e0, e1]; norm_num)

/-! ### C6: overlapping censor windows -/

/-- C6: censor points at `t = 10.0` and `t = 10.3` s (closer than the
0.5 s window) on a buffer of at least 10.8 s, with a beep source of at
least 500 ms: no error occurs (the operation is total), and the result is
the original audio with `[10.0, 10.3)` holding the earlier point's tone
(the first 300 ms of the beep) and `[10.3, 10.8)` holding the
later-sorted point's full 500 ms beep window — last applied wins in the
overlap. -/
theorem C6_overlap (beep audio : List Sample) (r1 r2 : Option String)
    (haudio : 10800 ≤ audio.length) (hbeep : 500 ≤ beep.length) :
    apply_censorship beep audio
        [{ seconds := some 10, reason := r1 }, { seconds := some (103/10), reason := r2 }]
      = audio.take 10000 ++ beep.take 300 ++ beep.take 500 ++ audio.drop 10800 := by
  have hsort : sortPoints
      [{ seconds := some 10, reason := r1 }, { seconds := some (103/10), reason := r2 }]
      = [{ seconds := some 10, reason := r1 }, { seconds := some (103/10), reason := r2 }] := by
    apply List.mergeSort_of_sorted
    norm_num [List.pairwise_cons, tsOf]
  have hp1 : censorStep beep audio { seconds := some 10, reason := r1 }
      = (audio.take 10000 ++ beep.take 500) ++ audio.drop 10500 := by
    rw [censorStep_eq _ _ _ (by norm_num [tsOf]),
      show tsOf { seconds := some (10:ℚ), reason := r1 } = 10 from rfl,
      show pyInt ((10:ℚ) * 1000) = 10000 from
        pyInt_eval_nonneg (by norm_num) (by norm_num) (by norm_num),
      min_eq_left (show (10000:ℤ) + 500 ≤ (audio.length:ℤ) by omega),
      show ((10000:ℤ)).toNat = 10000 from rfl,
      show ((10000:ℤ) + 500).toNat = 10500 by omega]
  have hlen1 : ((audio.take 10000 ++ beep.take 500) ++ audio.drop 10500).length
      = audio.length := by
    simp only [List.length_append, List.length_take, List.length_drop]
    omega
  have hp2 : censorStep beep ((audio.take 10000 ++ beep.take 500) ++ audio.drop 10500)
        { seconds := some (103/10), reason := r2 }
      = ((audio.take 10000 ++ beep.take 500) ++ audio.drop 10500).take 10300 ++
          beep.take 500 ++
          ((audio.take 10000 ++ beep.take 500) ++ audio.drop 10500).drop 10800 := by
    rw [censorStep_eq _ _ _ (by norm_num [tsOf]),
      show tsOf { seconds := some (103/10:ℚ), reason := r2 } = 103/10 from rfl,
      show pyInt ((103/10:ℚ) * 1000) = 10300 from
        pyInt_eval_nonneg (by norm_num) (by norm_num) (by norm_num),
      hlen1,
      min_eq_left (show (10300:ℤ) + 500 ≤ (audio.length:ℤ) by omega),
      show ((10300:ℤ)).toNat = 10300 from rfl,
      show ((10300:ℤ) + 500).toNat = 10800 by omega]
  have htakeA : ((audio.take 10000 ++ beep.take 500) ++ audio.drop 10500).take 10300
      = audio.take 10000 ++ beep.take 300 := by
    rw [List.take_append_of_le_length (by
        simp only [List.length_append, List.length_take]
        omega),
      List.take_append_eq_append_take, List.take_take,
      show (10300 ⊓ 10000 : ℕ) = 10000 by omega,
      show (audio.take 10000).length = 10000 by rw [List.length_take]; omega,
      List.take_take,
      show ((10300 - 10000) ⊓ 500 : ℕ) = 300 by omega]
  have hdropA : ((audio.take 10000 ++ beep.take 500) ++ audio.drop 10500).drop 10800
      = audio.drop 10800 := by
    rw [List.drop_append_eq_append_drop,
      List.drop_eq_nil_of_le (by
        simp only [List.length_append, List.length_take]
        omega),
      show (audio.take 10000 ++ beep.take 500).length = 10500 by
        simp only [List.length_append, List.length_take]
        omega,
      List.nil_append, show (10800 - 10500 : ℕ) = 300 from rfl, List.drop_drop]
  unfold apply_censorship
  rw [hsort, List.foldl_cons, List.foldl_cons, List.foldl_nil, hp1, hp2, htakeA, hdropA]

/-- C6, witness: the overlap behaviour at a concrete 11 s silent buffer
and a concrete 500 ms beep. -/
theorem C6_witness :
    10800 ≤ (List.replicate 11000 (0:ℤ)).length ∧
    500 ≤ (List.replicate 500 (9:ℤ)).length ∧
    apply_censorship (List.replicate 500 9) (List.replicate 11000 0)
        [{ seconds := some 10, reason := none }, { seconds := some (103/10), reason := none }]
      = (List.replicate 11000 (0:ℤ)).take 10000 ++ (List.replicate 500 (9:ℤ)).take 300 ++
          (List.replicate 500 (9:ℤ)).take 500 ++ (List.replicate 11000 (0:ℤ)).drop 10800 := by
  refine ⟨by rw [List.length_replicate]; omega, by rw [List.length_replicate], ?_⟩
  exact C6_overlap _ _ _ _ (by rw [List.length_replicate]; omega)
    (by rw [List.length_replicate])
